import Mathlib

/-
Verification of the SPARK particle-engine core (spark2 dev branch excerpt).

Shallow embedding conventions:
* C++ `float` values are embedded as exact rationals (or reals where a
  square root is computed); float literals are taken at face value
  (0.001f becomes 1/1000).
* `Vector3D` is embedded as the structure `V3` below.  `Vector3D` itself
  is not under src/, so its primitive operations (componentwise
  arithmetic, dot/cross product, normalize, setMax) are modelled from the
  spec, which describes them as the standard 3D vector operations.
* Stateful methods become pure functions from the old state (and the
  arguments) to the new state; a logged warning becomes a returned Bool;
  a fatal assertion becomes an Option result (none = assertion fired).
-/

set_option linter.unusedSectionVars false
set_option linter.unusedVariables false

namespace Spark2Proof

/-- Modelled from the spec: the 3-component float vector `Vector3D`
(header not under src/); the spec treats it as a plain (x, y, z) record. -/
structure V3 (α : Type) where
  x : α
  y : α
  z : α
deriving DecidableEq

/-- Index function for triples, used to embed the C++ arrays `axis[3]`,
`tAxis[3]` and the `operator[]` of `Vector3D`. -/
def mkTriple {β : Type} (a b c : β) : Fin 3 → β :=
  fun i => if i.val = 0 then a else if i.val = 1 then b else c

theorem mkTriple_zero {β : Type} (a b c : β) : mkTriple a b c 0 = a := rfl

theorem mkTriple_one {β : Type} (a b c : β) : mkTriple a b c 1 = b := rfl

theorem mkTriple_two {β : Type} (a b c : β) : mkTriple a b c 2 = c := rfl

namespace V3

variable {α : Type} [LinearOrderedField α]

/-- Modelled from the spec: the null vector `Vector3D()` (all components 0). -/
def zero : V3 α := ⟨0, 0, 0⟩

instance : Add (V3 α) := ⟨fun a b => ⟨a.x + b.x, a.y + b.y, a.z + b.z⟩⟩

instance : Sub (V3 α) := ⟨fun a b => ⟨a.x - b.x, a.y - b.y, a.z - b.z⟩⟩

instance : Neg (V3 α) := ⟨fun a => ⟨-a.x, -a.y, -a.z⟩⟩

instance : SMul α (V3 α) := ⟨fun c a => ⟨c * a.x, c * a.y, c * a.z⟩⟩

@[simp] theorem add_x (a b : V3 α) : (a + b).x = a.x + b.x := rfl
@[simp] theorem add_y (a b : V3 α) : (a + b).y = a.y + b.y := rfl
@[simp] theorem add_z (a b : V3 α) : (a + b).z = a.z + b.z := rfl
@[simp] theorem sub_x (a b : V3 α) : (a - b).x = a.x - b.x := rfl
@[simp] theorem sub_y (a b : V3 α) : (a - b).y = a.y - b.y := rfl
@[simp] theorem sub_z (a b : V3 α) : (a - b).z = a.z - b.z := rfl
@[simp] theorem neg_x (a : V3 α) : (-a).x = -a.x := rfl
@[simp] theorem neg_y (a : V3 α) : (-a).y = -a.y := rfl
@[simp] theorem neg_z (a : V3 α) : (-a).z = -a.z := rfl
@[simp] theorem smul_x (c : α) (a : V3 α) : (c • a).x = c * a.x := rfl
@[simp] theorem smul_y (c : α) (a : V3 α) : (c • a).y = c * a.y := rfl
@[simp] theorem smul_z (c : α) (a : V3 α) : (c • a).z = c * a.z := rfl
@[simp] theorem zero_x : (zero : V3 α).x = 0 := rfl
@[simp] theorem zero_y : (zero : V3 α).y = 0 := rfl
@[simp] theorem zero_z : (zero : V3 α).z = 0 := rfl

theorem eq_iff (a b : V3 α) : a = b ↔ a.x = b.x ∧ a.y = b.y ∧ a.z = b.z := by
  cases a; cases b; simp [mk.injEq]

/-- Modelled from the spec: `dotProduct` on `Vector3D`. -/
def dot (a b : V3 α) : α := a.x * b.x + a.y * b.y + a.z * b.z

/-- Modelled from the spec: `crossProduct` on `Vector3D`. -/
def cross (a b : V3 α) : V3 α :=
  ⟨a.y * b.z - a.z * b.y, a.z * b.x - a.x * b.z, a.x * b.y - a.y * b.x⟩

/-- Modelled from the spec: `Vector3D::operator[]` (component access 0 = x, 1 = y, 2 = z). -/
def comp (v : V3 α) : Fin 3 → α := mkTriple v.x v.y v.z

@[simp] theorem comp_zero (v : V3 α) : v.comp 0 = v.x := rfl
@[simp] theorem comp_one (v : V3 α) : v.comp 1 = v.y := rfl
@[simp] theorem comp_two (v : V3 α) : v.comp 2 = v.z := rfl

/-- Modelled from the spec: `Vector3D::abs` (componentwise absolute value),
used by `Box::setDimension` and `Box::computeNormal`. -/
def abs3 (v : V3 α) : V3 α := ⟨|v.x|, |v.y|, |v.z|⟩

/-- Modelled from the spec: `Vector3D::setMax` (componentwise maximum),
used by `Box::generateRandomDim`. -/
def maxv (a b : V3 α) : V3 α := ⟨max a.x b.x, max a.y b.y, max a.z b.z⟩

/-- Modelled from the spec: `Vector3D - float` subtracts the scalar from
every component (used in `dimension - radius`). -/
def subScalar (v : V3 α) (r : α) : V3 α := ⟨v.x - r, v.y - r, v.z - r⟩

/-- Modelled from the spec: `Vector3D::isNull` (all components zero). -/
def isNull (v : V3 α) : Prop := v = zero

instance (v : V3 α) : Decidable (isNull v) := by unfold isNull; infer_instance

theorem dot_comm (a b : V3 α) : dot a b = dot b a := by unfold dot; ring

theorem dot_self_nonneg (v : V3 α) : 0 ≤ dot v v := by
  unfold dot
  have hx := mul_self_nonneg v.x
  have hy := mul_self_nonneg v.y
  have hz := mul_self_nonneg v.z
  linarith

theorem dot_self_eq_zero_iff (v : V3 α) : dot v v = 0 ↔ v = zero := by
  constructor
  · intro h
    unfold dot at h
    have hx := mul_self_nonneg v.x
    have hy := mul_self_nonneg v.y
    have hz := mul_self_nonneg v.z
    rw [eq_iff]
    simp only [zero_x, zero_y, zero_z]
    refine ⟨mul_self_eq_zero.mp (by linarith), mul_self_eq_zero.mp (by linarith),
      mul_self_eq_zero.mp (by linarith)⟩
  · intro h; subst h; unfold dot; simp

theorem dot_neg_neg (a b : V3 α) : dot (-a) (-b) = dot a b := by
  unfold dot; simp only [neg_x, neg_y, neg_z]; ring

theorem dot_smul_smul (c d : α) (a b : V3 α) :
    dot (c • a) (d • b) = c * d * dot a b := by
  unfold dot; simp only [smul_x, smul_y, smul_z]; ring

theorem dot_sub_right (t a b : V3 α) : dot t (a - b) = dot t a - dot t b := by
  unfold dot; simp only [sub_x, sub_y, sub_z]; ring

theorem dot_smul_right (t : V3 α) (c : α) (a : V3 α) :
    dot t (c • a) = c * dot t a := by
  unfold dot; simp only [smul_x, smul_y, smul_z]; ring

theorem dot_add_right (t a b : V3 α) : dot t (a + b) = dot t a + dot t b := by
  unfold dot; simp only [add_x, add_y, add_z]; ring

theorem cross_self (a : V3 α) : cross a a = zero := by
  unfold cross zero
  rw [mk.injEq]
  refine ⟨by ring, by ring, by ring⟩

theorem cross_zero_left (a : V3 α) : cross zero a = zero := by
  unfold cross zero
  rw [mk.injEq]
  refine ⟨by ring, by ring, by ring⟩

theorem cross_smul_smul (c d : α) (a b : V3 α) :
    cross (c • a) (d • b) = (c * d) • cross a b := by
  unfold cross
  rw [mk.injEq]
  refine ⟨by simp; ring, by simp; ring, by simp; ring⟩

theorem dot_cross_left (a b : V3 α) : dot (cross a b) a = 0 := by
  unfold dot cross; ring

theorem dot_cross_right (a b : V3 α) : dot (cross a b) b = 0 := by
  unfold dot cross; ring

/-- Lagrange identity for the 3D cross product, used to show that the
cross product of orthogonal nonzero vectors is nonzero. -/
theorem dot_cross_self (a b : V3 α) :
    dot (cross a b) (cross a b) = dot a a * dot b b - (dot a b) ^ 2 := by
  unfold dot cross; ring

theorem smul_eq_zero_iff (c : α) (v : V3 α) :
    c • v = zero ↔ c = 0 ∨ v = zero := by
  constructor
  · intro h
    by_cases hc : c = 0
    · exact Or.inl hc
    · refine Or.inr ?_
      rw [eq_iff] at h ⊢
      simp only [smul_x, smul_y, smul_z, zero_x, zero_y, zero_z] at h ⊢
      obtain ⟨h1, h2, h3⟩ := h
      refine ⟨?_, ?_, ?_⟩
      · rcases mul_eq_zero.mp h1 with h | h
        · exact absurd h hc
        · exact h
      · rcases mul_eq_zero.mp h2 with h | h
        · exact absurd h hc
        · exact h
      · rcases mul_eq_zero.mp h3 with h | h
        · exact absurd h hc
        · exact h
  · intro h
    rcases h with h | h
    · subst h; rw [eq_iff]; simp
    · subst h; rw [eq_iff]; simp

theorem one_smul3 (v : V3 α) : (1 : α) • v = v := by
  rw [eq_iff]; simp

end V3

/-! ## Emitter (src/unnamed/part_003) -/

/-- The force range stored by an `Emitter` (`forceMin`, `forceMax` members). -/
structure ForceState where
  forceMin : ℚ
  forceMax : ℚ
deriving DecidableEq

/-- Embeds `Emitter::setForce(float min, float max)` from
src/unnamed/part_003 lines 73-86.  The returned Bool records whether the
`SPK_LOG_WARNING` branch was taken.  Note the source tests the previously
stored members `forceMin <= forceMax`, not the arguments `min <= max`. -/
def Emitter.setForce (st : ForceState) (mn mx : ℚ) : ForceState × Bool :=
  if st.forceMin ≤ st.forceMax then
    ({ forceMin := mn, forceMax := mx }, false)
  else
    ({ forceMin := mx, forceMax := mn }, true)

/-- The flow/tank supply state stored by an `Emitter` (`flow` is a float,
`tank` an int in the source). -/
structure EmitterState where
  flow : ℚ
  tank : ℤ
deriving DecidableEq

/-- Embeds `Emitter::setTank(int tank)` from src/unnamed/part_003 lines
61-65.  `SPK_ASSERT(flow >= 0.0f || tank >= 0, ...)` becomes an Option:
`none` means the fatal assertion fired (the member `flow` and the argument
`tank` are what the assert reads). -/
def Emitter.setTank (st : EmitterState) (tank : ℤ) : Option EmitterState :=
  if st.flow ≥ 0 ∨ tank ≥ 0 then some { st with tank := tank } else none

/-- Embeds `Emitter::setFlow(float flow)` from src/unnamed/part_003 lines
67-71.  The assert reads the argument `flow` and the member `tank`. -/
def Emitter.setFlow (st : EmitterState) (flow : ℚ) : Option EmitterState :=
  if flow ≥ 0 ∨ st.tank ≥ 0 then some { st with flow := flow } else none

/-! ## System step modes (src/unnamed/part_000) -/

/-- Embeds the `StepMode` enumeration of SPK_System.h. -/
inductive StepMode where
  | REAL
  | CONSTANT
  | ADAPTIVE
deriving DecidableEq

/-- The process-wide static step configuration of `System`. -/
structure StepConfig where
  stepMode : StepMode
  constantStep : ℚ
deriving DecidableEq

/-- Embeds `System::useConstantStep(float constantStep)` from
src/unnamed/part_000 lines 346-350. -/
def System.useConstantStep (cfg : StepConfig) (c : ℚ) : StepConfig :=
  { cfg with stepMode := StepMode.CONSTANT, constantStep := c }

/-- Modelled from the spec: the body of `System::updateParticles` is not
under src/ (part_000 only declares it).  Per the spec, in CONSTANT mode the
incoming delta is added to the accumulator `deltaStep` and consumed in
fixed sub-steps of size `constantStep` until less than one step remains;
the leftover stays in the accumulator for the next call.  The while-loop is
written in the equivalent closed form: the number of sub-steps is the
largest n with n * constantStep <= deltaStep + deltaTime.  Returns
(number of sub-steps performed, new accumulator value). -/
def System.constantStepUpdate (deltaStep constantStep deltaTime : ℚ) : ℕ × ℚ :=
  let acc := deltaStep + deltaTime
  let n := (Int.floor (acc / constantStep)).toNat
  (n, acc - n * constantStep)

/-! ## Vector normalization (real-valued, used by Point and Box::setAxis) -/

/-- Modelled from the spec: `Vector3D::normalize` (header not under src/)
divides the vector by its Euclidean norm and leaves it unchanged when the
norm is zero (the source returns a bool recording success). -/
noncomputable def V3.normalize (v : V3 ℝ) : V3 ℝ :=
  let norm := Real.sqrt (V3.dot v v)
  if norm = 0 then v else norm⁻¹ • v

theorem V3.normalize_of_dot_zero {v : V3 ℝ} (h : V3.dot v v = 0) :
    V3.normalize v = v := by
  unfold normalize
  rw [h, Real.sqrt_zero, if_pos rfl]

theorem V3.normalize_eq_smul {v : V3 ℝ} (h : V3.dot v v ≠ 0) :
    V3.normalize v = (Real.sqrt (V3.dot v v))⁻¹ • v := by
  have hpos : 0 < V3.dot v v := lt_of_le_of_ne (dot_self_nonneg v) (Ne.symm h)
  have hs : Real.sqrt (V3.dot v v) ≠ 0 := by
    rw [Real.sqrt_ne_zero']
    exact hpos
  unfold normalize
  rw [if_neg hs]

theorem V3.dot_normalize {v : V3 ℝ} (h : V3.dot v v ≠ 0) :
    V3.dot (V3.normalize v) (V3.normalize v) = 1 := by
  have hpos : 0 < V3.dot v v := lt_of_le_of_ne (dot_self_nonneg v) (Ne.symm h)
  rw [normalize_eq_smul h, dot_smul_smul]
  rw [← mul_inv]
  rw [Real.mul_self_sqrt (le_of_lt hpos)]
  exact inv_mul_cancel₀ h

theorem V3.normalize_of_dot_one {v : V3 ℝ} (h : V3.dot v v = 1) :
    V3.normalize v = v := by
  rw [normalize_eq_smul (h ▸ one_ne_zero), h, Real.sqrt_one, inv_one, one_smul3]

/-- Modelled from the spec: `normalizeOrRandomize` (not under src/)
normalizes the vector; on a degenerate (zero) vector it falls back to a
randomized vector, redrawn until it can be normalized.  The random
fallback draw is abstracted as the parameter `rand`, assumed nonzero by
the redraw loop. -/
noncomputable def normalizeOrRandomize (rand v : V3 ℝ) : V3 ℝ :=
  if V3.dot v v = 0 then V3.normalize rand else V3.normalize v

/-! ## Point zone (src/include/Extensions/Zones/SPK_Point.h) -/

/-- Embeds `Point::generatePosition` (SPK_Point.h lines 56-59): writes the
transformed position, ignoring `full` and `radius`.  The zone state is
reduced to its transformed position `tPosition`. -/
def Point.generatePosition {α : Type} [LinearOrderedField α]
    (tPosition : V3 α) (full : Bool) (radius : α) : V3 α :=
  tPosition

/-- Embeds `Point::contains` (SPK_Point.h lines 61-64): always false. -/
def Point.contains {α : Type} [LinearOrderedField α]
    (tPosition : V3 α) (v : V3 α) (radius : α) : Bool :=
  false

/-- Embeds `Point::intersects` (SPK_Point.h lines 66-69): always false. -/
def Point.intersects {α : Type} [LinearOrderedField α]
    (tPosition : V3 α) (v0 v1 : V3 α) (radius : α) : Bool :=
  false

/-- Embeds `Point::computeNormal` (SPK_Point.h lines 71-76):
`normal = v - getTransformedPosition(); normalizeOrRandomize(normal)`. -/
noncomputable def Point.computeNormal (rand : V3 ℝ) (tPosition v : V3 ℝ) : V3 ℝ :=
  normalizeOrRandomize rand (v - tPosition)

/-! ## Box zone (src/unnamed/part_002) -/

/-- The part of a `Box` read by `contains`, `generatePosition` and
`computeNormal`: the transformed position, the dimensions and the three
transformed axes `tAxis[3]`. -/
structure BoxState (α : Type) where
  tPosition : V3 α
  dimension : V3 α
  tAxis : Fin 3 → V3 α

/-- Embeds `std::numeric_limits<float>::max()` = (2 - 2^-23) * 2^127. -/
def maxFloat {α : Type} [LinearOrderedField α] : α :=
  340282346638528859811704183484516925440

/-- Embeds `Box::contains` (src/unnamed/part_002 lines 114-121): the
three-iteration loop returning false as soon as
`std::abs(dotProduct(tAxis[i], d)) - radius > dimension[i]`, unrolled. -/
def Box.contains {α : Type} [LinearOrderedField α]
    (b : BoxState α) (v : V3 α) (radius : α) : Bool :=
  let d := v - b.tPosition
  if |V3.dot (b.tAxis 0) d| - radius > b.dimension.comp 0 then false
  else if |V3.dot (b.tAxis 1) d| - radius > b.dimension.comp 1 then false
  else if |V3.dot (b.tAxis 2) d| - radius > b.dimension.comp 2 then false
  else true

/-- Embeds `SPKMain::generateRandom` (src/include/Core/SPK_DEF.h lines
97-114) applied to `Vector3D`: returns `min + t * (max - min)` where
`t = (randomSeed - 1) / 2147483646.0` is the seed-derived scalar,
abstracted here as the parameter `t`; every reachable seed gives
`t` in [0, 1]. -/
def spkRandomV3 {α : Type} [LinearOrderedField α] (t : α) (mn mx : V3 α) : V3 α :=
  mn + t • (mx - mn)

/-- Embeds the `full == true` branch of `Box::generateRandomDim`
(src/unnamed/part_002 lines 85-92): `relDimension` starts as the null
vector and `setMax(dimension - radius)` raises each component, then a
random vector is drawn in [-relDimension, relDimension]. -/
def Box.generateRandomDimFull {α : Type} [LinearOrderedField α]
    (b : BoxState α) (radius t : α) : V3 α :=
  let relDimension := V3.maxv V3.zero (V3.subScalar b.dimension radius)
  spkRandomV3 t (-relDimension) relDimension

/-- Embeds `Box::generatePosition` (src/unnamed/part_002 lines 105-112)
for `full = true`: `v = getTransformedPosition()` then
`v += randomDim[i] * tAxis[i]` for i = 0, 1, 2 (loop unrolled). -/
def Box.generatePositionFull {α : Type} [LinearOrderedField α]
    (b : BoxState α) (radius t : α) : V3 α :=
  let randomDim := Box.generateRandomDimFull b radius t
  b.tPosition + randomDim.comp 0 • b.tAxis 0 + randomDim.comp 1 • b.tAxis 1
    + randomDim.comp 2 • b.tAxis 2

/-- Embeds `Box::computeNormal` (src/unnamed/part_002 lines 173-191):
each ratio component starts at MAX_FLOAT and is replaced by
`dotProduct(tAxis[i], d) / dimension[i]` when `dimension[i] > 0`; the axis
with the largest absolute ratio is selected (strict comparisons, so ties
keep the earlier axis); the returned normal is `-tAxis[idx]` when the
selected ratio is positive and `tAxis[idx]` otherwise. -/
def Box.computeNormal {α : Type} [LinearOrderedField α]
    (b : BoxState α) (v : V3 α) : V3 α :=
  let d := v - b.tPosition
  let ratio : V3 α :=
    ⟨if b.dimension.comp 0 > 0 then V3.dot (b.tAxis 0) d / b.dimension.comp 0 else maxFloat,
     if b.dimension.comp 1 > 0 then V3.dot (b.tAxis 1) d / b.dimension.comp 1 else maxFloat,
     if b.dimension.comp 2 > 0 then V3.dot (b.tAxis 2) d / b.dimension.comp 2 else maxFloat⟩
  let absRatio := V3.abs3 ratio
  let i0 : Fin 3 := if absRatio.y > absRatio.x then 1 else 0
  let i1 : Fin 3 := if absRatio.z > absRatio.comp i0 then 2 else i0
  if ratio.comp i1 > 0 then -(b.tAxis i1) else b.tAxis i1

/-- Embeds `Box::setAxis` (src/unnamed/part_002 lines 58-83).  The
degenerate test of the source is literally `front == up || front.isNull()
|| up.isNull()`.  `transformDir` (Transformable, not under src/) is
abstracted as the parameter `R`; per the spec the transform is a world
position plus orientation axes, so `R` is the orientation map applied to
directions (identity for an untransformed zone).  Note the source computes
`tAxis[i]` from `axis[i]` before normalizing `axis[i]`.  Returns the pair
(stored `axis` triple, stored `tAxis` triple). -/
noncomputable def Box.setAxisAxes (R : V3 ℝ → V3 ℝ) (front up : V3 ℝ) :
    (Fin 3 → V3 ℝ) × (Fin 3 → V3 ℝ) :=
  let degenerate := front = up ∨ V3.isNull front ∨ V3.isNull up
  let a2 : V3 ℝ := if degenerate then ⟨0, 0, 1⟩ else V3.normalize front
  let a1 : V3 ℝ := if degenerate then ⟨0, 1, 0⟩ else V3.normalize up
  let a0 := V3.cross a2 a1
  let a1b := V3.cross a0 a2
  (mkTriple (V3.normalize a0) (V3.normalize a1b) (V3.normalize a2),
   mkTriple (R a0) (R a1b) (R a2))

/-- A triple of vectors is orthonormal when all pairwise dot products form
the identity pattern. -/
def OrthonormalTriple {α : Type} [LinearOrderedField α] (a : Fin 3 → V3 α) : Prop :=
  ∀ i j : Fin 3, V3.dot (a i) (a j) = if i = j then 1 else 0

instance {α : Type} [LinearOrderedField α] (a : Fin 3 → V3 α) :
    Decidable (OrthonormalTriple a) := by
  unfold OrthonormalTriple; infer_instance

/-- The canonical fallback axes actually stored by `Box::setAxis` in its
degenerate branch: axis[1] = (0,1,0) and axis[2] = (0,0,1) are assigned,
then axis[0] = axis[2] x axis[1] = (-1,0,0) and axis[1] is recomputed. -/
def canonicalAxes : Fin 3 → V3 ℝ :=
  mkTriple ⟨-1, 0, 0⟩ ⟨0, 1, 0⟩ ⟨0, 0, 1⟩

/-! ## Obstacle modifier (src/unnamed/part_001) -/

/-- The per-particle state read and written by `Obstacle::modify`. -/
structure Particle (α : Type) where
  position : V3 α
  oldPosition : V3 α
  velocity : V3 α
deriving DecidableEq

/-- Embeds the body of the particle loop of `Obstacle::modify`
(src/unnamed/part_001 lines 34-56).  The configured zone test
`checkZone` and the zone's virtual `computeNormal` are abstracted as
function parameters.  When the zone test triggers, the position is
reverted to the old position, the normal is computed there, and the
velocity is reassembled from the friction-scaled tangent part and the
bouncingRatio-scaled normal part (reverted when `dist > 0`); the literal
`0.001f` becomes 1/1000. -/
def Obstacle.modifyParticle {α : Type} [LinearOrderedField α]
    (bouncingRatio friction : α) (computeNormal : V3 α → V3 α)
    (checkZone : Particle α → Bool) (p : Particle α) : Particle α :=
  if checkZone p then
    let position := p.oldPosition
    let normal0 := computeNormal position
    let dist := V3.dot p.velocity normal0
    let normal1 := (dist - 1/1000) • normal0
    let velocity1 := p.velocity - normal1
    let velocity2 := friction • velocity1
    let normal2 := bouncingRatio • normal1
    let normal3 := if dist > 0 then -normal2 else normal2
    { position := position, oldPosition := p.oldPosition,
      velocity := velocity2 - normal3 }
  else p

/-- Embeds the `GroupIterator` loop of `Obstacle::modify`: every particle
of the group is visited in order and updated in place. -/
def Obstacle.modify {α : Type} [LinearOrderedField α]
    (bouncingRatio friction : α) (computeNormal : V3 α → V3 α)
    (checkZone : Particle α → Bool) (ps : List (Particle α)) : List (Particle α) :=
  ps.map (Obstacle.modifyParticle bouncingRatio friction computeNormal checkZone)

/-! ## Claim C1 -/

/-- C1: the claim says `setForce(min, max)` with `min > max` swaps the
values and logs a warning, so `setForce(5, 2)` should store
`(forceMin = 2, forceMax = 5)`.  The source instead tests the previously
stored members `forceMin <= forceMax`, so on an emitter whose stored
force range is well ordered (here `(0, 0)`) the call `setForce(5, 2)`
stores `(forceMin = 5, forceMax = 2)` un-swapped and logs no warning,
contradicting both the claim and the source's own warning message. -/
theorem C1_setForce_stores_unswapped :
    Emitter.setForce ⟨0, 0⟩ 5 2 = (⟨5, 2⟩, false) ∧
    (Emitter.setForce ⟨0, 0⟩ 5 2).1.forceMin ≠ 2 := by
  decide

/-! ## Claim C8 -/

/-- C8: after any `setTank` or `setFlow` call that passes its assertion,
flow and tank are never both negative; a call that would make both
negative trips the fatal assertion (modelled as `none`) and stores
nothing. -/
theorem C8_flow_tank_invariant :
    (∀ (st : EmitterState) (t : ℤ) (st2 : EmitterState),
        Emitter.setTank st t = some st2 → ¬(st2.flow < 0 ∧ st2.tank < 0)) ∧
    (∀ (st : EmitterState) (f : ℚ) (st2 : EmitterState),
        Emitter.setFlow st f = some st2 → ¬(st2.flow < 0 ∧ st2.tank < 0)) ∧
    (∀ (st : EmitterState) (t : ℤ),
        st.flow < 0 → t < 0 → Emitter.setTank st t = none) ∧
    (∀ (st : EmitterState) (f : ℚ),
        f < 0 → st.tank < 0 → Emitter.setFlow st f = none) := by
  refine ⟨?_, ?_, ?_, ?_⟩
  · intro st t st2 h
    unfold Emitter.setTank at h
    by_cases hc : st.flow ≥ 0 ∨ t ≥ 0
    · rw [if_pos hc] at h
      cases h
      intro hb
      rcases hc with hc | hc
      · exact absurd hb.1 (not_lt.mpr hc)
      · exact absurd hb.2 (not_lt.mpr hc)
    · rw [if_neg hc] at h
      cases h
  · intro st f st2 h
    unfold Emitter.setFlow at h
    by_cases hc : f ≥ 0 ∨ st.tank ≥ 0
    · rw [if_pos hc] at h
      cases h
      intro hb
      rcases hc with hc | hc
      · exact absurd hb.1 (not_lt.mpr hc)
      · exact absurd hb.2 (not_lt.mpr hc)
    · rw [if_neg hc] at h
      cases h
  · intro st t hf ht
    unfold Emitter.setTank
    rw [if_neg]
    push_neg
    exact ⟨hf, ht⟩
  · intro st f hf ht
    unfold Emitter.setFlow
    rw [if_neg]
    push_neg
    exact ⟨hf, ht⟩

/-- Witness for C8 at concrete inputs: a passing `setTank` call on a
negative-flow emitter keeps the invariant, and the call that would make
both negative fires the assertion. -/
theorem C8_flow_tank_invariant_witness :
    Emitter.setTank ⟨-1, 7⟩ 3 = some ⟨-1, 3⟩ ∧
    ¬((-1 : ℚ) < 0 ∧ (3 : ℤ) < 0) ∧
    Emitter.setTank ⟨-1, 7⟩ (-2) = none := by
  refine ⟨by decide, ?_, ?_⟩
  · exact C8_flow_tank_invariant.1 ⟨-1, 7⟩ 3 ⟨-1, 3⟩ (by decide)
  · exact C8_flow_tank_invariant.2.2.1 ⟨-1, 7⟩ (-2) (by decide) (by decide)

/-! ## Claim C5 -/

/-- C5: in CONSTANT step mode with constant step c and an empty
accumulator, `updateParticles(2.5 * c)` performs exactly 2 sub-steps of
size c and leaves 0.5 * c in the accumulator `deltaStep`, which is the
accumulator value fed to the next call.  `useConstantStep` stores the mode
and the step; the update loop is modelled from the spec (the body of
`updateParticles` is not under src/). -/
theorem C5_constant_step_accumulator (cfg : StepConfig) (c : ℚ) (hc : 0 < c) :
    (System.useConstantStep cfg c).stepMode = StepMode.CONSTANT ∧
    (System.useConstantStep cfg c).constantStep = c ∧
    System.constantStepUpdate 0 c (5/2 * c) = (2, c/2) := by
  refine ⟨rfl, rfl, ?_⟩
  unfold System.constantStepUpdate
  dsimp only
  have hc0 : c ≠ 0 := ne_of_gt hc
  have hdiv : (0 + 5/2 * c) / c = 5/2 := by
    field_simp
    ring
  rw [hdiv]
  have hfloor : Int.floor (5/2 : ℚ) = 2 := by
    norm_num [Int.floor_eq_iff]
  rw [hfloor, Prod.mk.injEq]
  constructor
  · rfl
  · push_cast
    ring

/-- Witness for C5 at c = 2: update(5) performs 2 sub-steps and keeps 1
in the accumulator. -/
theorem C5_constant_step_accumulator_witness :
    (0 : ℚ) < 2 ∧
    (System.useConstantStep ⟨StepMode.REAL, 0⟩ 2).stepMode = StepMode.CONSTANT ∧
    (System.useConstantStep ⟨StepMode.REAL, 0⟩ 2).constantStep = 2 ∧
    System.constantStepUpdate 0 2 (5/2 * 2) = (2, 2/2) :=
  ⟨by norm_num, C5_constant_step_accumulator ⟨StepMode.REAL, 0⟩ 2 (by norm_num)⟩

/-! ## Claim C10 -/

/-- C10: for the Point zone, `contains` and `intersects` always return
false, and `generatePosition` writes the zone's transformed position
regardless of `full` and `radius`. -/
theorem C10_point_trivial_zone :
    ∀ (tp v v0 v1 : V3 ℚ) (r : ℚ) (full : Bool),
      Point.contains tp v r = false ∧
      Point.intersects tp v0 v1 r = false ∧
      Point.generatePosition tp full r = tp := by
  intro tp v v0 v1 r full
  exact ⟨rfl, rfl, rfl⟩

/-! ## Claim C7 -/

/-- Helper: the unrolled early-return loop of `Box::contains` is the
per-axis slab test. -/
theorem Box.contains_iff {α : Type} [LinearOrderedField α]
    (b : BoxState α) (v : V3 α) (r : α) :
    Box.contains b v r = true ↔
      ∀ i : Fin 3, |V3.dot (b.tAxis i) (v - b.tPosition)| - r ≤ b.dimension.comp i := by
  unfold Box.contains
  dsimp only
  constructor
  · intro h i
    by_cases h0 : |V3.dot (b.tAxis 0) (v - b.tPosition)| - r > b.dimension.comp 0
    · rw [if_pos h0] at h; exact absurd h (by simp)
    by_cases h1 : |V3.dot (b.tAxis 1) (v - b.tPosition)| - r > b.dimension.comp 1
    · rw [if_neg h0, if_pos h1] at h; exact absurd h (by simp)
    by_cases h2 : |V3.dot (b.tAxis 2) (v - b.tPosition)| - r > b.dimension.comp 2
    · rw [if_neg h0, if_neg h1, if_pos h2] at h; exact absurd h (by simp)
    fin_cases i
    · exact not_lt.mp h0
    · exact not_lt.mp h1
    · exact not_lt.mp h2
  · intro h
    rw [if_neg (not_lt.mpr (h 0)), if_neg (not_lt.mpr (h 1)), if_neg (not_lt.mpr (h 2))]

/-- C7: `Box::contains(v, r)` returns true iff for every axis index i,
`|dot(tAxis_i, v - position)| - r <= dimension_i`, where position is the
transformed position of the box. -/
theorem C7_contains_is_slab_test (b : BoxState ℚ) (v : V3 ℚ) (r : ℚ) :
    Box.contains b v r = true ↔
      ∀ i : Fin 3, |V3.dot (b.tAxis i) (v - b.tPosition)| - r ≤ b.dimension.comp i :=
  Box.contains_iff b v r

/-! ## Claim C9 -/

/-- C9: a particle for which the configured zone test does not trigger is
left completely unchanged by `Obstacle::modify` (position, oldPosition and
velocity), both as the group element at any index i and as a single
particle. -/
theorem C9_untriggered_particle_unchanged (br fr : ℚ) (cn : V3 ℚ → V3 ℚ)
    (check : Particle ℚ → Bool) (ps : List (Particle ℚ)) (i : ℕ) (p : Particle ℚ)
    (h : ∀ q, ps[i]? = some q → check q = false) (hp : check p = false) :
    (Obstacle.modify br fr cn check ps)[i]? = ps[i]? ∧
    Obstacle.modifyParticle br fr cn check p = p := by
  have single : ∀ q : Particle ℚ, check q = false →
      Obstacle.modifyParticle br fr cn check q = q := by
    intro q hq
    unfold Obstacle.modifyParticle
    rw [hq]
    simp
  constructor
  · unfold Obstacle.modify
    rw [List.getElem?_map]
    cases hps : ps[i]? with
    | none => rfl
    | some q => simp [single q (h q hps)]
  · exact single p hp

/-- Witness for C9: a one-particle group whose zone test never triggers is
returned unchanged. -/
theorem C9_untriggered_particle_unchanged_witness :
    (Obstacle.modify (1 : ℚ) 1 (fun _ => ⟨0, 0, 1⟩) (fun _ => false)
        [⟨⟨1, 2, 3⟩, ⟨4, 5, 6⟩, ⟨7, 8, 9⟩⟩])[0]? =
      [(⟨⟨1, 2, 3⟩, ⟨4, 5, 6⟩, ⟨7, 8, 9⟩⟩ : Particle ℚ)][0]? ∧
    Obstacle.modifyParticle (1 : ℚ) 1 (fun _ => ⟨0, 0, 1⟩) (fun _ => false)
        ⟨⟨1, 2, 3⟩, ⟨4, 5, 6⟩, ⟨7, 8, 9⟩⟩ = ⟨⟨1, 2, 3⟩, ⟨4, 5, 6⟩, ⟨7, 8, 9⟩⟩ :=
  C9_untriggered_particle_unchanged 1 1 (fun _ => ⟨0, 0, 1⟩) (fun _ => false)
    [⟨⟨1, 2, 3⟩, ⟨4, 5, 6⟩, ⟨7, 8, 9⟩⟩] 0 ⟨⟨1, 2, 3⟩, ⟨4, 5, 6⟩, ⟨7, 8, 9⟩⟩
    (fun q _ => rfl) rfl

/-! ## Claim C6 -/

/-- C6: for every Box with valid dimensions (componentwise nonnegative)
and valid axes (orthonormal transformed axes), and every outcome of the
random generator (the seed-derived scalar t lies in [0, 1] for every
reachable seed), the point produced by `generatePosition(full = true,
radius = 0)` satisfies `contains(point, 0) = true`. -/
theorem C6_generated_point_is_contained (b : BoxState ℚ) (t : ℚ)
    (horth : OrthonormalTriple b.tAxis)
    (hdim : 0 ≤ b.dimension.x ∧ 0 ≤ b.dimension.y ∧ 0 ≤ b.dimension.z)
    (ht : 0 ≤ t ∧ t ≤ 1) :
    Box.contains b (Box.generatePositionFull b 0 t) 0 = true := by
  obtain ⟨hdx, hdy, hdz⟩ := hdim
  have habs : |2 * t - 1| ≤ 1 := by
    rw [abs_le]
    constructor <;> linarith [ht.1, ht.2]
  -- the random offsets along the three axes
  have hrd : Box.generateRandomDimFull b 0 t =
      ⟨(2 * t - 1) * b.dimension.x, (2 * t - 1) * b.dimension.y,
       (2 * t - 1) * b.dimension.z⟩ := by
    unfold Box.generateRandomDimFull spkRandomV3 V3.maxv V3.subScalar
    dsimp only
    rw [V3.eq_iff]
    simp only [V3.add_x, V3.add_y, V3.add_z, V3.sub_x, V3.sub_y, V3.sub_z,
      V3.neg_x, V3.neg_y, V3.neg_z, V3.smul_x, V3.smul_y, V3.smul_z,
      V3.zero_x, V3.zero_y, V3.zero_z]
    rw [max_eq_right (by linarith), max_eq_right (by linarith), max_eq_right (by linarith)]
    refine ⟨by ring, by ring, by ring⟩
  rw [Box.contains_iff]
  intro i
  -- the displacement from the transformed position is the random sum itself
  have hsub : ∀ x0 x1 x2 : V3 ℚ,
      (b.tPosition + x0 + x1 + x2) - b.tPosition = x0 + x1 + x2 := by
    intro x0 x1 x2
    rw [V3.eq_iff]
    simp only [V3.add_x, V3.add_y, V3.add_z, V3.sub_x, V3.sub_y, V3.sub_z]
    refine ⟨by ring, by ring, by ring⟩
  have hdot : ∀ j : Fin 3, V3.dot (b.tAxis j)
      (Box.generatePositionFull b 0 t - b.tPosition) =
      (Box.generateRandomDimFull b 0 t).comp j := by
    intro j
    unfold Box.generatePositionFull
    dsimp only
    rw [hsub, V3.dot_add_right, V3.dot_add_right,
      V3.dot_smul_right, V3.dot_smul_right, V3.dot_smul_right,
      horth j 0, horth j 1, horth j 2]
    fin_cases j <;> simp
  rw [hdot i, hrd]
  have key : ∀ dimc : ℚ, 0 ≤ dimc → |(2 * t - 1) * dimc| - 0 ≤ dimc := by
    intro dimc hc
    rw [abs_mul, abs_of_nonneg hc, sub_zero]
    calc |2 * t - 1| * dimc ≤ 1 * dimc := mul_le_mul_of_nonneg_right habs hc
    _ = dimc := one_mul dimc
  fin_cases i
  · simpa using key b.dimension.x hdx
  · simpa using key b.dimension.y hdy
  · simpa using key b.dimension.z hdz

/-- An axis-aligned unit-axes box at the origin with dimensions (1, 2, 3),
used as the concrete witness input for C6. -/
def c6Box : BoxState ℚ :=
  ⟨⟨0, 0, 0⟩, ⟨1, 2, 3⟩, mkTriple ⟨1, 0, 0⟩ ⟨0, 1, 0⟩ ⟨0, 0, 1⟩⟩

/-- Witness for C6: the axis-aligned box at the origin with dimensions
(1, 2, 3) and t = 3/4 yields a sampled point that `contains` accepts. -/
theorem C6_generated_point_is_contained_witness :
    OrthonormalTriple c6Box.tAxis ∧
    Box.contains c6Box (Box.generatePositionFull c6Box 0 (3/4)) 0 = true := by
  have horth : OrthonormalTriple c6Box.tAxis := by
    intro i j
    fin_cases i <;> fin_cases j <;> norm_num [c6Box, V3.dot, mkTriple, Fin.ext_iff]
  exact ⟨horth, C6_generated_point_is_contained c6Box (3/4) horth
    (by norm_num [c6Box]) (by norm_num)⟩

/-! ## Claim C2 -/

/-- Helper: closed form of `Obstacle::modify` on one particle whose zone
test triggers, read off the source line by line. -/
theorem Obstacle.modifyParticle_triggered {α : Type} [LinearOrderedField α]
    (br fr : α) (cn : V3 α → V3 α) (check : Particle α → Bool)
    (p : Particle α) (hc : check p = true) :
    Obstacle.modifyParticle br fr cn check p =
      { position := p.oldPosition, oldPosition := p.oldPosition,
        velocity :=
          fr • (p.velocity -
              (V3.dot p.velocity (cn p.oldPosition) - 1/1000) • cn p.oldPosition) -
            (if 0 < V3.dot p.velocity (cn p.oldPosition) then
              -(br • ((V3.dot p.velocity (cn p.oldPosition) - 1/1000) • cn p.oldPosition))
            else
              br • ((V3.dot p.velocity (cn p.oldPosition) - 1/1000) • cn p.oldPosition)) } := by
  unfold Obstacle.modifyParticle
  rw [hc]
  rfl

/-- C2, counterexample to the claim as stated: an Obstacle with
`bouncingRatio = 1`, `friction = 1` over a plane with unit normal
(0, 0, 1), acting on a particle with velocity (0, 0, -3) (normal
component d = -3, moving into the surface).  The claim says the outgoing
normal component is exactly `-d` and that reflection happens exactly when
`dot(velocity, normal) > 0`; the source instead produces outgoing
velocity (0, 0, 3.002) — the extra 0.002 comes from the `0.001f`
push-out term — and it reflects here even though
`dot(velocity, normal) = -3` is not positive. -/
theorem C2_counterexample :
    (Obstacle.modifyParticle (1 : ℚ) 1 (fun _ => ⟨0, 0, 1⟩) (fun _ => true)
        ⟨⟨0, 0, 9/10⟩, ⟨0, 0, 1⟩, ⟨0, 0, -3⟩⟩).velocity = ⟨0, 0, 1501/500⟩ ∧
    V3.dot (⟨0, 0, -3⟩ : V3 ℚ) ⟨0, 0, 1⟩ = -3 ∧
    (1501/500 : ℚ) ≠ -(-3) ∧ ¬(0 : ℚ) < -3 := by
  refine ⟨?_, by norm_num [V3.dot], by norm_num, by norm_num⟩
  rw [Obstacle.modifyParticle_triggered _ _ _ _ _ rfl]
  dsimp only
  have hdot : V3.dot (⟨0, 0, -3⟩ : V3 ℚ) ⟨0, 0, 1⟩ = -3 := by norm_num [V3.dot]
  rw [hdot, if_neg (by norm_num)]
  rw [V3.eq_iff]
  simp only [V3.smul_x, V3.smul_y, V3.smul_z, V3.sub_x, V3.sub_y, V3.sub_z]
  norm_num

/-- C2, amended: for an Obstacle with `bouncingRatio = 1` and
`friction = 1`, whenever the zone test triggers for a particle, the
position is reverted to the old position, the tangential velocity
component (with respect to the zone's unit normal n at the reverted
position) is preserved exactly, and the normal velocity component d =
dot(velocity, n) becomes `-d + 0.002` when `d <= 0` (sign reversal plus
the 0.001 push-out applied twice) while it stays exactly `d` (no
reflection) when `d > 0`: the reflection happens exactly when
`dot(velocity, normal) <= 0`, not `> 0`, and is exact only up to the
0.002 offset. -/
theorem C2_obstacle_elastic_bounce (f : V3 ℚ → V3 ℚ) (check : Particle ℚ → Bool)
    (pos old v : V3 ℚ)
    (hn : V3.dot (f old) (f old) = 1)
    (hc : check ⟨pos, old, v⟩ = true) :
    (Obstacle.modifyParticle 1 1 f check ⟨pos, old, v⟩).position = old ∧
    V3.dot (Obstacle.modifyParticle 1 1 f check ⟨pos, old, v⟩).velocity (f old) =
      (if 0 < V3.dot v (f old) then V3.dot v (f old)
       else -(V3.dot v (f old)) + 1/500) ∧
    (Obstacle.modifyParticle 1 1 f check ⟨pos, old, v⟩).velocity -
        (V3.dot (Obstacle.modifyParticle 1 1 f check ⟨pos, old, v⟩).velocity (f old)) • f old =
      v - (V3.dot v (f old)) • f old := by
  rw [Obstacle.modifyParticle_triggered 1 1 f check ⟨pos, old, v⟩ hc]
  dsimp only
  by_cases hd : 0 < V3.dot v (f old)
  · rw [if_pos hd, if_pos hd]
    have hv : (1 : ℚ) • (v - (V3.dot v (f old) - 1/1000) • f old) -
        -((1 : ℚ) • ((V3.dot v (f old) - 1/1000) • f old)) = v := by
      rw [V3.eq_iff]
      simp only [V3.smul_x, V3.smul_y, V3.smul_z, V3.sub_x, V3.sub_y, V3.sub_z,
        V3.neg_x, V3.neg_y, V3.neg_z]
      refine ⟨by ring, by ring, by ring⟩
    rw [hv]
    exact ⟨rfl, rfl, rfl⟩
  · rw [if_neg hd, if_neg hd]
    have hv : (1 : ℚ) • (v - (V3.dot v (f old) - 1/1000) • f old) -
        (1 : ℚ) • ((V3.dot v (f old) - 1/1000) • f old) =
        v - (2 * (V3.dot v (f old) - 1/1000)) • f old := by
      rw [V3.eq_iff]
      simp only [V3.smul_x, V3.smul_y, V3.smul_z, V3.sub_x, V3.sub_y, V3.sub_z]
      refine ⟨by ring, by ring, by ring⟩
    rw [hv]
    have hdot : V3.dot (v - (2 * (V3.dot v (f old) - 1/1000)) • f old) (f old) =
        -(V3.dot v (f old)) + 1/500 := by
      rw [V3.dot_comm, V3.dot_sub_right, V3.dot_smul_right, V3.dot_comm (f old) v, hn]
      ring
    refine ⟨rfl, hdot, ?_⟩
    rw [hdot]
    rw [V3.eq_iff]
    simp only [V3.smul_x, V3.smul_y, V3.smul_z, V3.sub_x, V3.sub_y, V3.sub_z]
    refine ⟨by ring, by ring, by ring⟩

/-- Witness for the amended C2 at concrete inputs: unit normal (0, 0, 1),
velocity (2, 3, -4), old position (1, 2, 3). -/
theorem C2_obstacle_elastic_bounce_witness :
    V3.dot (⟨0, 0, 1⟩ : V3 ℚ) ⟨0, 0, 1⟩ = 1 ∧
    ((Obstacle.modifyParticle (1 : ℚ) 1 (fun _ => (⟨0, 0, 1⟩ : V3 ℚ)) (fun _ => true)
        ⟨⟨5, 0, 0⟩, ⟨1, 2, 3⟩, ⟨2, 3, -4⟩⟩).position = ⟨1, 2, 3⟩ ∧
      V3.dot (Obstacle.modifyParticle (1 : ℚ) 1 (fun _ => (⟨0, 0, 1⟩ : V3 ℚ)) (fun _ => true)
          ⟨⟨5, 0, 0⟩, ⟨1, 2, 3⟩, ⟨2, 3, -4⟩⟩).velocity ⟨0, 0, 1⟩ =
        (if 0 < V3.dot (⟨2, 3, -4⟩ : V3 ℚ) ⟨0, 0, 1⟩ then V3.dot (⟨2, 3, -4⟩ : V3 ℚ) ⟨0, 0, 1⟩
         else -(V3.dot (⟨2, 3, -4⟩ : V3 ℚ) ⟨0, 0, 1⟩) + 1/500) ∧
      (Obstacle.modifyParticle (1 : ℚ) 1 (fun _ => (⟨0, 0, 1⟩ : V3 ℚ)) (fun _ => true)
          ⟨⟨5, 0, 0⟩, ⟨1, 2, 3⟩, ⟨2, 3, -4⟩⟩).velocity -
          (V3.dot (Obstacle.modifyParticle (1 : ℚ) 1 (fun _ => (⟨0, 0, 1⟩ : V3 ℚ)) (fun _ => true)
              ⟨⟨5, 0, 0⟩, ⟨1, 2, 3⟩, ⟨2, 3, -4⟩⟩).velocity ⟨0, 0, 1⟩) • ⟨0, 0, 1⟩ =
        (⟨2, 3, -4⟩ : V3 ℚ) - (V3.dot (⟨2, 3, -4⟩ : V3 ℚ) ⟨0, 0, 1⟩) • ⟨0, 0, 1⟩) :=
  ⟨by norm_num [V3.dot],
   C2_obstacle_elastic_bounce (fun _ => (⟨0, 0, 1⟩ : V3 ℚ)) (fun _ => true)
     ⟨5, 0, 0⟩ ⟨1, 2, 3⟩ ⟨2, 3, -4⟩ (by norm_num [V3.dot]) rfl⟩

/-! ## Claim C4 -/

/-- Helper: `cross a zero = zero`. -/
theorem V3.cross_zero_right {α : Type} [LinearOrderedField α] (a : V3 α) :
    V3.cross a V3.zero = V3.zero := by
  unfold cross zero
  rw [V3.mk.injEq]
  refine ⟨by ring, by ring, by ring⟩

/-- Helper: `normalize` is always a scalar multiple of its argument. -/
theorem V3.normalize_eq_some_smul (v : V3 ℝ) : ∃ c : ℝ, V3.normalize v = c • v := by
  by_cases h : V3.dot v v = 0
  · exact ⟨1, by rw [normalize_of_dot_zero h, one_smul3]⟩
  · exact ⟨(Real.sqrt (V3.dot v v))⁻¹, normalize_eq_smul h⟩

/-- Helper: normalization preserves orthogonality. -/
theorem V3.dot_normalize_normalize {a b : V3 ℝ} (h : V3.dot a b = 0) :
    V3.dot (V3.normalize a) (V3.normalize b) = 0 := by
  obtain ⟨c, hc⟩ := normalize_eq_some_smul a
  obtain ⟨d, hd⟩ := normalize_eq_some_smul b
  rw [hc, hd, dot_smul_smul, h, mul_zero]

/-- Helper: the axis triple stored by `Box::setAxis` in the non-degenerate
branch, read off the source. -/
theorem Box.setAxisAxes_axis_eq (R : V3 ℝ → V3 ℝ) (front up : V3 ℝ)
    (h : ¬(front = up ∨ V3.isNull front ∨ V3.isNull up)) :
    (Box.setAxisAxes R front up).1 =
      mkTriple
        (V3.normalize (V3.cross (V3.normalize front) (V3.normalize up)))
        (V3.normalize (V3.cross (V3.cross (V3.normalize front) (V3.normalize up))
          (V3.normalize front)))
        (V3.normalize (V3.normalize front)) := by
  unfold Box.setAxisAxes
  dsimp only
  rw [if_neg h, if_neg h]

/-- Helper: the transformed axis triple stored by `Box::setAxis` in the
non-degenerate branch: the direction transform of the axes before their
final normalization. -/
theorem Box.setAxisAxes_tAxis_eq (R : V3 ℝ → V3 ℝ) (front up : V3 ℝ)
    (h : ¬(front = up ∨ V3.isNull front ∨ V3.isNull up)) :
    (Box.setAxisAxes R front up).2 =
      mkTriple
        (R (V3.cross (V3.normalize front) (V3.normalize up)))
        (R (V3.cross (V3.cross (V3.normalize front) (V3.normalize up)) (V3.normalize front)))
        (R (V3.normalize front)) := by
  unfold Box.setAxisAxes
  dsimp only
  rw [if_neg h, if_neg h]

/-- Helper: in the degenerate branch the stored axis triple is the
canonical fallback `{(-1,0,0), (0,1,0), (0,0,1)}`. -/
theorem Box.setAxisAxes_axis_degenerate (R : V3 ℝ → V3 ℝ) (front up : V3 ℝ)
    (h : front = up ∨ V3.isNull front ∨ V3.isNull up) :
    (Box.setAxisAxes R front up).1 = canonicalAxes := by
  unfold Box.setAxisAxes
  dsimp only
  rw [if_pos h, if_pos h]
  have hc1 : V3.cross (⟨0, 0, 1⟩ : V3 ℝ) ⟨0, 1, 0⟩ = ⟨-1, 0, 0⟩ := by
    unfold V3.cross
    rw [V3.mk.injEq]
    norm_num
  have hc2 : V3.cross (⟨-1, 0, 0⟩ : V3 ℝ) ⟨0, 0, 1⟩ = ⟨0, 1, 0⟩ := by
    unfold V3.cross
    rw [V3.mk.injEq]
    norm_num
  rw [hc1, hc2]
  have hn1 : V3.normalize (⟨-1, 0, 0⟩ : V3 ℝ) = ⟨-1, 0, 0⟩ :=
    V3.normalize_of_dot_one (by norm_num [V3.dot])
  have hn2 : V3.normalize (⟨0, 1, 0⟩ : V3 ℝ) = ⟨0, 1, 0⟩ :=
    V3.normalize_of_dot_one (by norm_num [V3.dot])
  have hn3 : V3.normalize (⟨0, 0, 1⟩ : V3 ℝ) = ⟨0, 0, 1⟩ :=
    V3.normalize_of_dot_one (by norm_num [V3.dot])
  rw [hn1, hn2, hn3]
  rfl

/-- Helper: the canonical fallback triple is orthonormal. -/
theorem canonicalAxes_orthonormal : OrthonormalTriple canonicalAxes := by
  intro i j
  fin_cases i <;> fin_cases j <;>
    norm_num [canonicalAxes, mkTriple, V3.dot, Fin.ext_iff]

/-- Helper: a triple with unit, pairwise-orthogonal entries is orthonormal. -/
theorem orthonormal_of_facts (A B C : V3 ℝ)
    (hA : V3.dot A A = 1) (hB : V3.dot B B = 1) (hC : V3.dot C C = 1)
    (hAB : V3.dot A B = 0) (hAC : V3.dot A C = 0) (hBC : V3.dot B C = 0) :
    OrthonormalTriple (mkTriple A B C) := by
  have hBA : V3.dot B A = 0 := by rw [V3.dot_comm]; exact hAB
  have hCA : V3.dot C A = 0 := by rw [V3.dot_comm]; exact hAC
  have hCB : V3.dot C B = 0 := by rw [V3.dot_comm]; exact hBC
  intro i j
  fin_cases i <;> fin_cases j <;>
    simp only [mkTriple] <;>
    norm_num [Fin.ext_iff] <;>
    assumption

/-- C4, counterexample to the claim as stated: `setAxis` with the parallel
(but not equal) vectors front = (0,0,1) and up = (0,0,2) does not take the
degenerate fallback branch (the source only tests `front == up` and
nullity), so the two cross products collapse to the null vector and the
stored axes are {0, 0, (0,0,1)} — neither the canonical triple nor a
unit-length orthogonal triple. -/
theorem C4_counterexample :
    (Box.setAxisAxes id ⟨0, 0, 1⟩ ⟨0, 0, 2⟩).1 0 = V3.zero ∧
    ¬ OrthonormalTriple (Box.setAxisAxes id ⟨0, 0, 1⟩ ⟨0, 0, 2⟩).1 := by
  have hnd : ¬((⟨0, 0, 1⟩ : V3 ℝ) = ⟨0, 0, 2⟩ ∨ V3.isNull (⟨0, 0, 1⟩ : V3 ℝ) ∨
      V3.isNull (⟨0, 0, 2⟩ : V3 ℝ)) := by
    unfold V3.isNull V3.zero
    push_neg
    refine ⟨?_, ?_, ?_⟩ <;> · intro hh; rw [V3.mk.injEq] at hh; norm_num at hh
  have h1 : V3.normalize (⟨0, 0, 1⟩ : V3 ℝ) = ⟨0, 0, 1⟩ :=
    V3.normalize_of_dot_one (by norm_num [V3.dot])
  have h2 : V3.normalize (⟨0, 0, 2⟩ : V3 ℝ) = ⟨0, 0, 1⟩ := by
    rw [V3.normalize_eq_smul (by norm_num [V3.dot])]
    have hd : V3.dot (⟨0, 0, 2⟩ : V3 ℝ) ⟨0, 0, 2⟩ = 4 := by norm_num [V3.dot]
    rw [hd]
    have h4 : Real.sqrt 4 = 2 := by
      rw [show (4 : ℝ) = 2 ^ 2 by norm_num, Real.sqrt_sq (by norm_num : (0 : ℝ) ≤ 2)]
    rw [h4, V3.eq_iff]
    norm_num
  have heq := Box.setAxisAxes_axis_eq id ⟨0, 0, 1⟩ ⟨0, 0, 2⟩ hnd
  rw [h1, h2, V3.cross_self, V3.cross_zero_left,
    V3.normalize_of_dot_zero (by norm_num [V3.dot, V3.zero])] at heq
  rw [heq]
  constructor
  · exact mkTriple_zero _ _ _
  · intro hON
    have h00 := hON 0 0
    rw [mkTriple_zero] at h00
    rw [if_pos rfl] at h00
    have : V3.dot (V3.zero : V3 ℝ) V3.zero = 0 := by norm_num [V3.dot, V3.zero]
    rw [this] at h00
    exact zero_ne_one h00

/-- C4, amended: `Box::setAxis(front, up)` stores the canonical
orthonormal fallback axes (equivalent to {(1,0,0),(0,1,0),(0,0,1)} up to
cross-product construction order, concretely {(-1,0,0),(0,1,0),(0,0,1)})
exactly when front and up are equal or either is null; outside that
fallback the stored axis triple is a unit-length orthogonal triple
provided front and up are not parallel (cross(front, up) /= 0).  For
parallel-but-unequal nonzero inputs — excluded by the hypothesis — the
fallback is not triggered and the stored axes contain null vectors (see
the counterexample). -/
theorem C4_setAxis_orthonormal (R : V3 ℝ → V3 ℝ) (front up : V3 ℝ)
    (h : front = up ∨ V3.isNull front ∨ V3.isNull up ∨
      V3.cross front up ≠ V3.zero) :
    OrthonormalTriple (Box.setAxisAxes R front up).1 ∧
    (front = up ∨ V3.isNull front ∨ V3.isNull up →
      (Box.setAxisAxes R front up).1 = canonicalAxes) := by
  by_cases hdeg : front = up ∨ V3.isNull front ∨ V3.isNull up
  · have he := Box.setAxisAxes_axis_degenerate R front up hdeg
    rw [he]
    exact ⟨canonicalAxes_orthonormal, fun _ => rfl⟩
  · have hcross : V3.cross front up ≠ V3.zero := by
      rcases h with h | h | h | h
      · exact absurd (Or.inl h) hdeg
      · exact absurd (Or.inr (Or.inl h)) hdeg
      · exact absurd (Or.inr (Or.inr h)) hdeg
      · exact h
    have hf0 : front ≠ V3.zero := by
      intro he
      exact hcross (by rw [he, V3.cross_zero_left])
    have hu0 : up ≠ V3.zero := by
      intro he
      exact hcross (by rw [he, V3.cross_zero_right])
    have hdf : V3.dot front front ≠ 0 := fun hh => hf0 (V3.dot_self_eq_zero_iff front |>.mp hh)
    have hdu : V3.dot up up ≠ 0 := fun hh => hu0 (V3.dot_self_eq_zero_iff up |>.mp hh)
    have hdfpos : 0 < V3.dot front front :=
      lt_of_le_of_ne (V3.dot_self_nonneg front) (Ne.symm hdf)
    have hdupos : 0 < V3.dot up up :=
      lt_of_le_of_ne (V3.dot_self_nonneg up) (Ne.symm hdu)
    have hff : V3.dot (V3.normalize front) (V3.normalize front) = 1 := V3.dot_normalize hdf
    have huu : V3.dot (V3.normalize up) (V3.normalize up) = 1 := V3.dot_normalize hdu
    -- the un-normalized first axis is nonzero because front and up are not parallel
    have hcfu : V3.cross (V3.normalize front) (V3.normalize up) ≠ V3.zero := by
      rw [V3.normalize_eq_smul hdf, V3.normalize_eq_smul hdu, V3.cross_smul_smul]
      intro hh
      rcases (V3.smul_eq_zero_iff _ _).mp hh with hh | hh
      · have hsf : Real.sqrt (V3.dot front front) ≠ 0 := by
          rw [Real.sqrt_ne_zero']
          exact hdfpos
        have hsu : Real.sqrt (V3.dot up up) ≠ 0 := by
          rw [Real.sqrt_ne_zero']
          exact hdupos
        exact (mul_ne_zero (inv_ne_zero hsf) (inv_ne_zero hsu)) hh
      · exact hcross hh
    have ha0 : V3.dot (V3.cross (V3.normalize front) (V3.normalize up))
        (V3.cross (V3.normalize front) (V3.normalize up)) ≠ 0 :=
      fun hh => hcfu ((V3.dot_self_eq_zero_iff _).mp hh)
    have ha0f : V3.dot (V3.cross (V3.normalize front) (V3.normalize up))
        (V3.normalize front) = 0 := V3.dot_cross_left _ _
    have ha0u : V3.dot (V3.cross (V3.normalize front) (V3.normalize up))
        (V3.normalize up) = 0 := V3.dot_cross_right _ _
    have ha1self : V3.dot
        (V3.cross (V3.cross (V3.normalize front) (V3.normalize up)) (V3.normalize front))
        (V3.cross (V3.cross (V3.normalize front) (V3.normalize up)) (V3.normalize front)) =
        V3.dot (V3.cross (V3.normalize front) (V3.normalize up))
          (V3.cross (V3.normalize front) (V3.normalize up)) := by
      rw [V3.dot_cross_self, hff, ha0f]
      ring
    have ha1 : V3.dot
        (V3.cross (V3.cross (V3.normalize front) (V3.normalize up)) (V3.normalize front))
        (V3.cross (V3.cross (V3.normalize front) (V3.normalize up)) (V3.normalize front)) ≠ 0 := by
      rw [ha1self]
      exact ha0
    have ha1a0 : V3.dot
        (V3.cross (V3.cross (V3.normalize front) (V3.normalize up)) (V3.normalize front))
        (V3.cross (V3.normalize front) (V3.normalize up)) = 0 := V3.dot_cross_left _ _
    have ha1f : V3.dot
        (V3.cross (V3.cross (V3.normalize front) (V3.normalize up)) (V3.normalize front))
        (V3.normalize front) = 0 := V3.dot_cross_right _ _
    rw [Box.setAxisAxes_axis_eq R front up hdeg]
    refine ⟨?_, fun hd2 => absurd hd2 hdeg⟩
    refine orthonormal_of_facts _ _ _ (V3.dot_normalize ha0) (V3.dot_normalize ha1)
      (V3.dot_normalize (by rw [hff]; exact one_ne_zero)) ?_ ?_ ?_
    · exact V3.dot_normalize_normalize (by rw [V3.dot_comm]; exact ha1a0)
    · exact V3.dot_normalize_normalize ha0f
    · exact V3.dot_normalize_normalize ha1f

/-- Witness for the amended C4: front = (0,0,1), up = (0,1,0), an
untransformed box. -/
theorem C4_setAxis_orthonormal_witness :
    ((⟨0, 0, 1⟩ : V3 ℝ) = ⟨0, 1, 0⟩ ∨ V3.isNull (⟨0, 0, 1⟩ : V3 ℝ) ∨
      V3.isNull (⟨0, 1, 0⟩ : V3 ℝ) ∨
      V3.cross (⟨0, 0, 1⟩ : V3 ℝ) ⟨0, 1, 0⟩ ≠ V3.zero) ∧
    (OrthonormalTriple (Box.setAxisAxes id ⟨0, 0, 1⟩ ⟨0, 1, 0⟩).1 ∧
      ((⟨0, 0, 1⟩ : V3 ℝ) = ⟨0, 1, 0⟩ ∨ V3.isNull (⟨0, 0, 1⟩ : V3 ℝ) ∨
        V3.isNull (⟨0, 1, 0⟩ : V3 ℝ) →
        (Box.setAxisAxes id ⟨0, 0, 1⟩ ⟨0, 1, 0⟩).1 = canonicalAxes)) := by
  have hcr : V3.cross (⟨0, 0, 1⟩ : V3 ℝ) ⟨0, 1, 0⟩ ≠ V3.zero := by
    unfold V3.cross V3.zero
    intro hh
    rw [V3.mk.injEq] at hh
    norm_num at hh
  exact ⟨Or.inr (Or.inr (Or.inr hcr)),
    C4_setAxis_orthonormal id ⟨0, 0, 1⟩ ⟨0, 1, 0⟩ (Or.inr (Or.inr (Or.inr hcr)))⟩

/-! ## Claim C3 -/

/-- A box as left by `Box::setAxis((0,0,1), (0, 3/5, 4/5))` on an
untransformed zone (identity direction transform) at the origin with
dimensions (1,1,1): front and up are unit but not perpendicular, so the
stored `tAxis` — computed from the axes before their final normalization —
are not all unit length. -/
noncomputable def c3Box : BoxState ℝ :=
  { tPosition := V3.zero, dimension := ⟨1, 1, 1⟩,
    tAxis := (Box.setAxisAxes id ⟨0, 0, 1⟩ ⟨0, 3/5, 4/5⟩).2 }

/-- Helper: the transformed axes of `c3Box` evaluate to
{(-3/5, 0, 0), (0, 3/5, 0), (0, 0, 1)}. -/
theorem c3Box_tAxis :
    c3Box.tAxis = mkTriple ⟨-(3/5), 0, 0⟩ ⟨0, 3/5, 0⟩ ⟨0, 0, 1⟩ := by
  have hnd : ¬((⟨0, 0, 1⟩ : V3 ℝ) = ⟨0, 3/5, 4/5⟩ ∨ V3.isNull (⟨0, 0, 1⟩ : V3 ℝ) ∨
      V3.isNull (⟨0, 3/5, 4/5⟩ : V3 ℝ)) := by
    unfold V3.isNull V3.zero
    push_neg
    refine ⟨?_, ?_, ?_⟩ <;> · intro hh; rw [V3.mk.injEq] at hh; norm_num at hh
  have h1 : V3.normalize (⟨0, 0, 1⟩ : V3 ℝ) = ⟨0, 0, 1⟩ :=
    V3.normalize_of_dot_one (by norm_num [V3.dot])
  have h2 : V3.normalize (⟨0, 3/5, 4/5⟩ : V3 ℝ) = ⟨0, 3/5, 4/5⟩ :=
    V3.normalize_of_dot_one (by norm_num [V3.dot])
  have hc1 : V3.cross (⟨0, 0, 1⟩ : V3 ℝ) ⟨0, 3/5, 4/5⟩ = ⟨-(3/5), 0, 0⟩ := by
    unfold V3.cross
    rw [V3.mk.injEq]
    norm_num
  have hc2 : V3.cross (⟨-(3/5), 0, 0⟩ : V3 ℝ) ⟨0, 0, 1⟩ = ⟨0, 3/5, 0⟩ := by
    unfold V3.cross
    rw [V3.mk.injEq]
    norm_num
  show (Box.setAxisAxes id ⟨0, 0, 1⟩ ⟨0, 3/5, 4/5⟩).2 = _
  rw [Box.setAxisAxes_tAxis_eq id _ _ hnd, h1, h2, hc1, hc2]
  rfl

/-- C3, counterexample to the claim as stated: querying `c3Box` (a Box
right after `setAxis` with non-perpendicular front and up, under the
identity transform) at the point (1, 0, 0) returns the normal
(-3/5, 0, 0), whose squared length is 9/25, not 1. -/
theorem C3_counterexample :
    V3.dot (Box.computeNormal c3Box ⟨1, 0, 0⟩) (Box.computeNormal c3Box ⟨1, 0, 0⟩) = 9/25 ∧
    (9/25 : ℝ) ≠ 1 := by
  have hval : Box.computeNormal c3Box ⟨1, 0, 0⟩ = ⟨-(3/5), 0, 0⟩ := by
    unfold Box.computeNormal
    dsimp only
    rw [c3Box_tAxis]
    have hp : c3Box.tPosition = V3.zero := rfl
    have hd : c3Box.dimension = ⟨1, 1, 1⟩ := rfl
    rw [hp, hd]
    have hsub : (⟨1, 0, 0⟩ : V3 ℝ) - V3.zero = ⟨1, 0, 0⟩ := by
      rw [V3.eq_iff]
      norm_num
    rw [hsub]
    rw [mkTriple_zero, mkTriple_one, mkTriple_two]
    have hda : V3.dot (⟨-(3/5), 0, 0⟩ : V3 ℝ) ⟨1, 0, 0⟩ = -(3/5) := by norm_num [V3.dot]
    have hdb : V3.dot (⟨0, 3/5, 0⟩ : V3 ℝ) ⟨1, 0, 0⟩ = 0 := by norm_num [V3.dot]
    have hdc : V3.dot (⟨0, 0, 1⟩ : V3 ℝ) ⟨1, 0, 0⟩ = 0 := by norm_num [V3.dot]
    rw [hda, hdb, hdc]
    norm_num [V3.comp, V3.abs3, mkTriple, abs_of_nonpos, abs_of_nonneg]
  rw [hval]
  norm_num [V3.dot]

/-- Helper: a conditional choice between a vector and its negation keeps
the squared length. -/
theorem V3.dot_ite_pm {α : Type} [LinearOrderedField α] (c : Prop) [Decidable c]
    (u : V3 α) (h : V3.dot u u = 1) :
    V3.dot (if c then -u else u) (if c then -u else u) = 1 := by
  by_cases hc : c
  · rw [if_pos hc, V3.dot_neg_neg]
    exact h
  · rw [if_neg hc]
    exact h

/-- C3, amended: `Point::computeNormal` always returns a vector of length
exactly 1 (squared length 1), including the degenerate case v = position
where the randomized fallback (nonzero by its redraw loop) is normalized;
`Box::computeNormal` returns plus or minus one of the stored transformed
axes, so it has length 1 whenever the stored `tAxis` are unit vectors
(e.g. after a transform update with an orientation map) — but not for
every reachable Box state: right after `setAxis` with non-perpendicular
front/up the selected `tAxis` can have length below 1 (see the
counterexample). -/
theorem C3_computeNormal_unit (rand p v : V3 ℝ) (b : BoxState ℝ) (w : V3 ℝ)
    (hr : V3.dot rand rand ≠ 0)
    (hax : ∀ i : Fin 3, V3.dot (b.tAxis i) (b.tAxis i) = 1) :
    V3.dot (Point.computeNormal rand p v) (Point.computeNormal rand p v) = 1 ∧
    V3.dot (Box.computeNormal b w) (Box.computeNormal b w) = 1 := by
  constructor
  · unfold Point.computeNormal normalizeOrRandomize
    by_cases h : V3.dot (v - p) (v - p) = 0
    · rw [if_pos h]
      exact V3.dot_normalize hr
    · rw [if_neg h]
      exact V3.dot_normalize h
  · unfold Box.computeNormal
    dsimp only
    apply V3.dot_ite_pm
    exact hax _

/-- An axis-aligned unit-axes box used as the concrete Box input of the
C3 witness. -/
noncomputable def c3WitnessBox : BoxState ℝ :=
  ⟨V3.zero, ⟨1, 2, 3⟩, mkTriple ⟨1, 0, 0⟩ ⟨0, 1, 0⟩ ⟨0, 0, 1⟩⟩

/-- Witness for the amended C3: Point zone at the origin queried at
(0, 0, 2) with fallback (1, 0, 0); an axis-aligned unit-axes box queried
at (5, 7, -1). -/
theorem C3_computeNormal_unit_witness :
    V3.dot (⟨1, 0, 0⟩ : V3 ℝ) ⟨1, 0, 0⟩ ≠ 0 ∧
    V3.dot (Point.computeNormal ⟨1, 0, 0⟩ V3.zero ⟨0, 0, 2⟩)
        (Point.computeNormal ⟨1, 0, 0⟩ V3.zero ⟨0, 0, 2⟩) = 1 ∧
    V3.dot (Box.computeNormal c3WitnessBox ⟨5, 7, -1⟩)
        (Box.computeNormal c3WitnessBox ⟨5, 7, -1⟩) = 1 := by
  have hr : V3.dot (⟨1, 0, 0⟩ : V3 ℝ) ⟨1, 0, 0⟩ ≠ 0 := by norm_num [V3.dot]
  have hax : ∀ i : Fin 3,
      V3.dot (c3WitnessBox.tAxis i) (c3WitnessBox.tAxis i) = 1 := by
    intro i
    fin_cases i <;> norm_num [c3WitnessBox, mkTriple, V3.dot]
  have hmain := C3_computeNormal_unit ⟨1, 0, 0⟩ V3.zero ⟨0, 0, 2⟩
    c3WitnessBox ⟨5, 7, -1⟩ hr hax
  exact ⟨hr, hmain.1, hmain.2⟩

end Spark2Proof
